import Mathlib

/-!
Verification of the Aspire Rust ATS client runtime
(`src/Aspire.Hosting.CodeGeneration.Rust/Resources/transport.rs` and `base.rs`).

The development shallowly embeds the hand-written runtime core: the JSON value
model (`serde_json::Value`), the handle and reference-expression data model,
the serde-derived decoders, the request dispatch loop of `send_request`, the
reverse-request handler `handle_callback_request`, `invoke_callback` parameter
decoding, the cancellation token state machine, the client disconnect state
machine, and the lazy collection handle resolution of `AspireList` /
`AspireDict`.
-/

/-- Model of a `serde_json` number: an unsigned 64-bit integer, a negative
64-bit integer, or an opaque floating point value (for which `as_u64` fails). -/
inductive JNum where
  | uint : Nat → JNum
  | int : Int → JNum
  | float : JNum
deriving DecidableEq

/-- Model of `serde_json::Value`. Objects are association lists of
key-value pairs (serde maps have unique keys; lookup takes the first match). -/
inductive JValue where
  | null : JValue
  | bool : Bool → JValue
  | num : JNum → JValue
  | str : String → JValue
  | arr : List JValue → JValue
  | obj : List (String × JValue) → JValue

/-- Lookup of a key in a JSON object body, first match wins
(models `serde_json::Map::get`). -/
def jlookup : List (String × JValue) → String → Option JValue
  | [], _ => none
  | (k, v) :: rest, key => if k = key then some v else jlookup rest key

/-- Models `Value::get(&str)`: member lookup, defined only on objects. -/
def jget (v : JValue) (key : String) : Option JValue :=
  match v with
  | .obj kvs => jlookup kvs key
  | _ => none

/-- Models `Value::as_str`. -/
def asStr : JValue → Option String
  | .str s => some s
  | _ => none

/-- Models `Value::as_bool`. -/
def asBool : JValue → Option Bool
  | .bool b => some b
  | _ => none

/-- Models `Value::as_array`. -/
def asArr : JValue → Option (List JValue)
  | .arr xs => some xs
  | _ => none

/-- Models `Value::as_u64`: succeeds exactly on numbers stored as an
unsigned integer. -/
def asU64 : JValue → Option Nat
  | .num (.uint n) => some n
  | _ => none

/-- Model of `transport::Handle`: a reference to a server-side object,
a pair of `handle_id` and `type_id` strings. -/
structure Handle where
  handle_id : String
  type_id : String
deriving DecidableEq

/-- Models `Handle::to_json`: the object with the reserved keys
`$handle` and `$type`. -/
def Handle.to_json (h : Handle) : JValue :=
  .obj [("$handle", .str h.handle_id), ("$type", .str h.type_id)]

/-- Models the serde-derived `Deserialize` for `Handle`
(`serde_json::from_value::<Handle>`). Two shapes decode: an object whose
renamed fields `$handle` and `$type` are present as strings (unknown
members are ignored), and — through the derived `visit_seq` path that
serde offers every named-field struct — an array of exactly two strings,
taken in field declaration order. No further validation is performed. -/
def from_value_handle (v : JValue) : Option Handle :=
  match v with
  | .obj kvs =>
    match jlookup kvs "$handle", jlookup kvs "$type" with
    | some (.str h), some (.str t) => some ⟨h, t⟩
    | _, _ => none
  | .arr [.str h, .str t] => some ⟨h, t⟩
  | _ => none

/-- Models `transport::is_marshalled_handle`. -/
def is_marshalled_handle (v : JValue) : Bool :=
  match v with
  | .obj kvs => (jlookup kvs "$handle").isSome && (jlookup kvs "$type").isSome
  | _ => false

/-- Models `transport::is_ats_error`: an object carrying a `$error` member. -/
def is_ats_error (v : JValue) : Bool :=
  match v with
  | .obj kvs => (jlookup kvs "$error").isSome
  | _ => false

/-- Models `transport::wrap_if_handle`, which returns the value unchanged
on both branches (wrapping is left to generated code). -/
def wrap_if_handle (v : JValue) : JValue :=
  if is_marshalled_handle v = false then v else v

/-- Model of `transport::CapabilityError` (code, message, optional
capability). -/
structure CapabilityError where
  code : String
  message : String
  capability : Option String
deriving DecidableEq

/-- The two error layers surfaced by `invoke_capability`: a JSON-RPC
protocol-level error (the `error` member of the response) and an ATS
capability error (the `$error` envelope inside `result`). -/
inductive RpcError where
  | protocol : String → RpcError
  | capability : CapabilityError → RpcError

/-- Extraction of a `CapabilityError` from the `$error` object, as in
`invoke_capability`: `code` and `message` default to the empty string via
`as_str`/`unwrap_or`, `capability` is optional. -/
def capability_error_of (errObj : List (String × JValue)) : CapabilityError :=
  { code := ((jlookup errObj "code").bind asStr).getD ""
    message := ((jlookup errObj "message").bind asStr).getD ""
    capability := (jlookup errObj "capability").bind asStr }

/-- Models the result shaping in `AspireClient::invoke_capability`: a result
that `is_ats_error` and whose `$error` member is an object fails with a
`CapabilityError` copied from it; every other result is returned through
`wrap_if_handle`. -/
def invoke_capability_shape (result : JValue) : Except RpcError JValue :=
  if is_ats_error result then
    match result with
    | .obj kvs =>
      match jlookup kvs "$error" with
      | some (.obj errObj) => .error (.capability (capability_error_of errObj))
      | _ => .ok (wrap_if_handle result)
    | _ => .ok (wrap_if_handle result)
  else .ok (wrap_if_handle result)

/-- The positional parameter key for index `i`, as built by
`format!("p\x7b\x7d", i)` in `invoke_callback`. -/
def pkey (i : Nat) : String := "p" ++ Nat.repr i

/-- The scan of `invoke_callback` over an object argument: collect the
values of keys `p0`, `p1`, ... in order, stopping at the first missing key.
The fuel argument bounds the scan; `kvs.length + 1` fuel is always enough
because the found keys are pairwise distinct members of `kvs`. -/
def collectP (kvs : List (String × JValue)) : Nat → Nat → List JValue
  | _, 0 => []
  | i, fuel + 1 =>
    match jlookup kvs (pkey i) with
    | some v => v :: collectP kvs (i + 1) fuel
    | none => []

/-- Models the argument conversion of `invoke_callback`: an object yields
the dense `p0`, `p1`, ... scan, `null` yields no arguments, and any other
value yields exactly itself. -/
def positional_args (args : JValue) : List JValue :=
  match args with
  | .obj kvs => collectP kvs 0 (kvs.length + 1)
  | .null => []
  | v => [v]

/-- A process-wide callback registry (models `CALLBACK_REGISTRY`): a map
from callback id to the registered closure. -/
def Registry : Type := String → Option (List JValue → JValue)

/-- Models `transport::invoke_callback`: rejects an empty callback id,
looks up the registry, converts the `args` value to positional arguments
and applies the closure. -/
def invoke_callback (reg : Registry) (callback_id : String) (args : JValue) :
    Except String JValue :=
  if callback_id = "" then .error "Callback ID missing"
  else
    match reg callback_id with
    | none => .error ("Callback not found: " ++ callback_id)
    | some cb => .ok (cb (positional_args args))

/-- A JSON-RPC error reply as written by `handle_callback_request`:
carries the inbound id, a numeric code and a message. -/
def error_reply (id : JValue) (code : Int) (message : String) : JValue :=
  .obj [("jsonrpc", .str "2.0"), ("id", id),
    ("error", .obj [("code", .num (.int code)), ("message", .str message)])]

/-- A JSON-RPC result reply as written by `handle_callback_request`. -/
def result_reply (id : JValue) (v : JValue) : JValue :=
  .obj [("jsonrpc", .str "2.0"), ("id", id), ("result", v)]

/-- The method string extracted by `handle_callback_request`
(`get("method").and_then(as_str).unwrap_or("")`). -/
def method_of (msg : JValue) : String :=
  ((jget msg "method").bind asStr).getD ""

/-- Models `AspireClient::handle_callback_request`: the reply written for an
inbound reverse request, or `none` when no reply is written (the inbound
message has no `id`). Unknown methods are answered with code `-32601`;
`invokeCallback` runs `invoke_callback` and answers with its result or with
code `-32000` on failure. -/
def handle_callback_request (reg : Registry) (msg : JValue) : Option JValue :=
  let method := method_of msg
  let request_id := jget msg "id"
  if method ≠ "invokeCallback" then
    request_id.map fun id => error_reply id (-32601) ("Unknown method: " ++ method)
  else
    let params := (jget msg "params").bind asArr
    let callback_id := ((params.bind List.head?).bind asStr).getD ""
    let args := (params.bind fun p => p[1]?).getD .null
    match invoke_callback reg callback_id args with
    | .ok v => request_id.map fun id => result_reply id v
    | .error e => request_id.map fun id => error_reply id (-32000) e

/-- The message extracted from a JSON-RPC `error` member by `send_request`
(`error.get("message").and_then(as_str).unwrap_or("Unknown error")`). -/
def json_error_message (err : JValue) : String :=
  ((jget err "message").bind asStr).getD "Unknown error"

/-- Result of the `send_request` dispatch loop over a list of inbound framed
messages: the replies written to reverse requests, and the outcome (`none`
when the messages ran out with the call still waiting). -/
structure LoopOut where
  replies : List JValue
  outcome : Option (Except String JValue)

/-- Models the dispatch loop of `AspireClient::send_request` for an outbound
request with id `request_id`: messages carrying a `method` member are routed
to `handle_callback_request` and the loop continues; a message whose `id`
decodes with `as_u64` to `request_id` ends the loop with the protocol error
message (when an `error` member is present) or with the `result` member
(defaulted to `null`); every other message is skipped. -/
def send_request_loop (reg : Registry) (request_id : Nat) :
    List JValue → LoopOut
  | [] => ⟨[], none⟩
  | msg :: rest =>
    if (jget msg "method").isSome then
      let reply := handle_callback_request reg msg
      let r := send_request_loop reg request_id rest
      ⟨reply.toList ++ r.replies, r.outcome⟩
    else
      match (jget msg "id").bind asU64 with
      | some resp_id =>
        if resp_id = request_id then
          match jget msg "error" with
          | some err => ⟨[], some (.error (json_error_message err))⟩
          | none => ⟨[], some (.ok ((jget msg "result").getD .null))⟩
        else send_request_loop reg request_id rest
      | none => send_request_loop reg request_id rest

/-- Models `invoke_capability` run against a list of inbound messages:
the `send_request` dispatch loop followed by the result shaping
(protocol errors become `RpcError.protocol`, an ATS `$error` envelope
becomes `RpcError.capability`). -/
def invoke_capability_on (reg : Registry) (request_id : Nat)
    (msgs : List JValue) : List JValue × Option (Except RpcError JValue) :=
  let r := send_request_loop reg request_id msgs
  (r.replies, r.outcome.map fun o =>
    match o with
    | .error m => .error (.protocol m)
    | .ok result => invoke_capability_shape result)

/-- Models `cancel_token` run against a list of inbound messages: the
dispatch loop followed by `result.as_bool().unwrap_or(false)`. -/
def cancel_token_on (reg : Registry) (request_id : Nat)
    (msgs : List JValue) : List JValue × Option (Except String Bool) :=
  let r := send_request_loop reg request_id msgs
  (r.replies, r.outcome.map fun o => o.map fun result => (asBool result).getD false)

/-- A JSON-RPC response message carrying a `result`, as produced by the
server for request id `rid`. -/
def mk_response (rid : Nat) (result : JValue) : JValue :=
  .obj [("jsonrpc", .str "2.0"), ("id", .num (.uint rid)), ("result", result)]

/-- A JSON-RPC response message carrying an `error` member. -/
def mk_error_response (rid : Nat) (err : JValue) : JValue :=
  .obj [("jsonrpc", .str "2.0"), ("id", .num (.uint rid)), ("error", err)]

/-- A JSON-RPC response message with no `result` member at all. -/
def mk_bare_response (rid : Nat) : JValue :=
  .obj [("jsonrpc", .str "2.0"), ("id", .num (.uint rid))]

/-- An inbound `invokeCallback` reverse request with params
`[callback_id, args]`. -/
def mk_callback_request (id : JValue) (callback_id : String) (args : JValue) : JValue :=
  .obj [("jsonrpc", .str "2.0"), ("id", id), ("method", .str "invokeCallback"),
    ("params", .arr [.str callback_id, args])]

/-- State of a `transport::CancellationToken`: the `cancelled` flag and the
registered continuations in registration order (continuations are named by
natural numbers; running one is recorded by emitting its name). -/
structure TokenState where
  cancelled : Bool
  callbacks : List Nat
deriving DecidableEq

/-- Models `CancellationToken::new_local` (and `new`): not cancelled, no
continuations. -/
def TokenState.new_local : TokenState := ⟨false, []⟩

/-- Models `CancellationToken::cancel`: the `swap` returns the old flag; if
already cancelled nothing happens, otherwise the continuation list is
drained (`mem::take`) and every continuation runs in registration order.
Returns the new state and the continuations that ran, in order. -/
def TokenState.cancel (s : TokenState) : TokenState × List Nat :=
  if s.cancelled then (s, [])
  else ({ cancelled := true, callbacks := [] }, s.callbacks)

/-- Models `CancellationToken::is_cancelled`. -/
def TokenState.is_cancelled (s : TokenState) : Bool := s.cancelled

/-- Models `CancellationToken::register`: when already cancelled the
continuation runs immediately, otherwise it is appended to the list. -/
def TokenState.register (s : TokenState) (c : Nat) : TokenState × List Nat :=
  if s.cancelled then (s, [c])
  else ({ s with callbacks := s.callbacks ++ [c] }, [])

/-- The operations a cancellation token supports. -/
inductive TokenOp where
  | cancel : TokenOp
  | register : Nat → TokenOp

/-- One step of the token state machine, returning the continuations that
ran during the step. -/
def tokenStep (s : TokenState) : TokenOp → TokenState × List Nat
  | .cancel => s.cancel
  | .register c => s.register c

/-- State of an `AspireClient` relevant to connection lifecycle: the
`connected` flag and the registered disconnect listeners in registration
order (listeners are named by natural numbers). -/
structure ClientState where
  connected : Bool
  disconnect_callbacks : List Nat
deriving DecidableEq

/-- Models `AspireClient::new`: not connected, no listeners. -/
def ClientState.new : ClientState := ⟨false, []⟩

/-- Models `AspireClient::connect`: if already connected, nothing happens;
otherwise the connection is acquired and `connected` is set. -/
def ClientState.connect (s : ClientState) : ClientState :=
  if s.connected then s else { s with connected := true }

/-- Models `AspireClient::on_disconnect`: appends a listener. -/
def ClientState.on_disconnect (s : ClientState) (l : Nat) : ClientState :=
  { s with disconnect_callbacks := s.disconnect_callbacks ++ [l] }

/-- Models `AspireClient::disconnect`: stores `connected = false`, releases
the connection, and then fires every registered disconnect listener, with
no check of the previous `connected` state. Returns the new state and the
listeners that fired, in order. -/
def ClientState.disconnect (s : ClientState) : ClientState × List Nat :=
  ({ s with connected := false }, s.disconnect_callbacks)

/-- State shared by `base::AspireList` and `base::AspireDict` (their fields
and `ensure_handle` bodies are identical): the context handle, the optional
getter capability id, and the write-once `OnceCell` resolved handle. -/
structure LazyColl where
  context_handle : Handle
  getter_capability_id : Option String
  resolved_handle : Option Handle
deriving DecidableEq

/-- Models `AspireList::new` / `AspireDict::new`: the cell is seeded with
the known handle. -/
def LazyColl.new (h : Handle) : LazyColl := ⟨h, none, some h⟩

/-- Models `AspireList::with_getter` / `AspireDict::with_getter`:
resolution deferred, empty cell. -/
def LazyColl.with_getter (context_handle : Handle) (getter : String) : LazyColl :=
  ⟨context_handle, some getter, none⟩

/-- An oracle for `client.invoke_capability`: capability id and argument
map to the call result (`Except` covers both protocol and capability
failures, which `ensure_handle` treats alike). -/
def InvokeOracle : Type := String → List (String × JValue) → Except String JValue

/-- The handle `ensure_handle` computes when the cell is empty: invoke the
getter with the single argument `context` bound to the context handle
serialization; the result is decoded with the serde `Handle` decoder and
the context handle is the fallback on any failure. -/
def resolve_getter (invoke : InvokeOracle) (ctx : Handle) (getter : String) : Handle :=
  match invoke getter [("context", ctx.to_json)] with
  | .ok result =>
    match from_value_handle result with
    | some h => h
    | none => ctx
  | .error _ => ctx

/-- Models `ensure_handle` (`get_or_init` on the `OnceCell`): a filled cell
is returned as is with no capability call; an empty cell is filled from the
getter (or from the context handle when no getter is configured). Returns
the handle, the new state, and the capability invocations performed. -/
def LazyColl.ensure_handle (invoke : InvokeOracle) (c : LazyColl) :
    Handle × LazyColl × List (String × List (String × JValue)) :=
  match c.resolved_handle with
  | some h => (h, c, [])
  | none =>
    match c.getter_capability_id with
    | some getter =>
      let h := resolve_getter invoke c.context_handle getter
      (h, { c with resolved_handle := some h },
        [(getter, [("context", c.context_handle.to_json)])])
    | none =>
      (c.context_handle, { c with resolved_handle := some c.context_handle }, [])

/-- A sequence of `n` `handle()` accesses: returns the handles observed, the
final state, and every capability invocation performed, in order. -/
def LazyColl.accessN (invoke : InvokeOracle) :
    LazyColl → Nat → List Handle × LazyColl × List (String × List (String × JValue))
  | c, 0 => ([], c, [])
  | c, n + 1 =>
    let r := c.ensure_handle invoke
    let rest := LazyColl.accessN invoke r.2.1 n
    (r.1 :: rest.1, rest.2.1, r.2.2 ++ rest.2.2)

/-- Model of `base::ReferenceExpression`: a format string and an argument
sequence. -/
structure ReferenceExpression where
  format : String
  args : List JValue

/-- Models `ReferenceExpression::to_json`: the hand-written encoder, which
always wraps the fields in a `$refExpr` envelope. -/
def ReferenceExpression.to_json (r : ReferenceExpression) : JValue :=
  .obj [("$refExpr", .obj [("format", .str r.format), ("args", .arr r.args)])]

/-- Models the serde-derived `Deserialize` for `ReferenceExpression`
(`base.rs` line 53): the fields are not renamed, so the decoder reads the
bare members `format` (a string) and `args` (an array); unknown members
are ignored. As for every derived named-field struct, serde also accepts
the `visit_seq` form: an array of exactly the two field values in
declaration order. -/
def from_value_ref_expr (v : JValue) : Option ReferenceExpression :=
  match v with
  | .obj kvs =>
    match jlookup kvs "format", jlookup kvs "args" with
    | some (.str f), some (.arr a) => some ⟨f, a⟩
    | _, _ => none
  | .arr [.str f, .arr a] => some ⟨f, a⟩
  | _ => none

/-- The decimal digit characters of `n`, most significant first: a
fuel-free counterpart of `Nat.toDigitsCore`, used to reason about the
`p0`, `p1`, ... keys of `positional_args`. -/
def decDigits (n : Nat) : List Char :=
  if h : n / 10 = 0 then [Nat.digitChar (n % 10)]
  else decDigits (n / 10) ++ [Nat.digitChar (n % 10)]
decreasing_by
  exact Nat.div_lt_self (Nat.pos_of_ne_zero fun hn => h (by simp [hn])) (by decide)

/-- Evaluation of a most-significant-first decimal digit string back to a
number, a left inverse of `decDigits`. -/
def decVal (ds : List Char) : Nat :=
  ds.foldl (fun acc c => acc * 10 + (c.toNat - 48)) 0

theorem digitChar_toNat_sub (d : Nat) (hd : d < 10) :
    (Nat.digitChar d).toNat - 48 = d := by
  interval_cases d <;> rfl

theorem decVal_append (ds : List Char) (c : Char) :
    decVal (ds ++ [c]) = (decVal ds) * 10 + (c.toNat - 48) := by
  simp [decVal, List.foldl_append]

theorem decVal_decDigits (n : Nat) : decVal (decDigits n) = n := by
  induction n using Nat.strong_induction_on with
  | _ n ih =>
    rw [decDigits]
    split
    next h =>
      have h1 : (Nat.digitChar (n % 10)).toNat - 48 = n % 10 :=
        digitChar_toNat_sub _ (by omega)
      simp [decVal, h1]
      omega
    next h =>
      rw [decVal_append, ih (n / 10) (by omega), digitChar_toNat_sub _ (by omega)]
      omega

theorem toDigitsCore_eq_decDigits (fuel : Nat) :
    ∀ n ds, n < fuel → Nat.toDigitsCore 10 fuel n ds = decDigits n ++ ds := by
  induction fuel with
  | zero => intro n ds h; omega
  | succ f ih =>
    intro n ds h
    rw [Nat.toDigitsCore]
    by_cases h10 : n / 10 = 0
    · rw [decDigits]
      simp [h10]
    · rw [if_neg h10, ih (n / 10) _ (by omega)]
      conv_rhs => rw [decDigits]
      simp [h10]

theorem repr_eq_decDigits (n : Nat) : Nat.repr n = (decDigits n).asString := by
  show (Nat.toDigits 10 n).asString = (decDigits n).asString
  rw [Nat.toDigits, toDigitsCore_eq_decDigits (n + 1) n [] (by omega)]
  simp

theorem nat_repr_injective : Function.Injective Nat.repr := by
  intro a b h
  rw [repr_eq_decDigits, repr_eq_decDigits, List.asString_inj] at h
  have h2 := congrArg decVal h
  rwa [decVal_decDigits, decVal_decDigits] at h2

theorem pkey_injective : Function.Injective pkey := by
  intro a b h
  have hd : ("p" ++ Nat.repr a).data = ("p" ++ Nat.repr b).data := congrArg String.data h
  simp only [String.data_append] at hd
  have h2 : (Nat.repr a).data = (Nat.repr b).data := List.append_cancel_left hd
  exact nat_repr_injective (String.toList_inj.mp h2)

theorem jlookup_some_mem :
    ∀ (kvs : List (String × JValue)) (k : String) (v : JValue),
      jlookup kvs k = some v → k ∈ kvs.map Prod.fst := by
  intro kvs k v h
  induction kvs with
  | nil => simp [jlookup] at h
  | cons p rest ih =>
    obtain ⟨k1, v1⟩ := p
    simp only [jlookup] at h
    by_cases hk : k1 = k
    · simp [hk]
    · rw [if_neg hk] at h
      simp [ih h]

theorem collectP_lookup (kvs : List (String × JValue)) :
    ∀ fuel i m v, (collectP kvs i fuel)[m]? = some v →
      jlookup kvs (pkey (i + m)) = some v := by
  intro fuel
  induction fuel with
  | zero => intro i m v h; simp [collectP] at h
  | succ f ih =>
    intro i m v h
    rw [collectP] at h
    cases hl : jlookup kvs (pkey i) with
    | none => rw [hl] at h; simp at h
    | some w =>
      rw [hl] at h
      cases m with
      | zero =>
        simp at h
        subst h
        simpa using hl
      | succ m' =>
        simp only [List.getElem?_cons_succ] at h
        rw [show i + (m' + 1) = (i + 1) + m' by omega]
        exact ih (i + 1) m' v h

theorem collectP_length_le (kvs : List (String × JValue)) (fuel i : Nat) :
    (collectP kvs i fuel).length ≤ kvs.length := by
  have hnd : ((List.range (collectP kvs i fuel).length).map
      (fun m => pkey (i + m))).Nodup := by
    apply List.Nodup.map _ (List.nodup_range _)
    intro a b hab
    exact Nat.add_left_cancel (pkey_injective hab)
  have hsub : ((List.range (collectP kvs i fuel).length).map
      (fun m => pkey (i + m))) ⊆ kvs.map Prod.fst := by
    intro k hk
    rw [List.mem_map] at hk
    obtain ⟨m, hm, rfl⟩ := hk
    rw [List.mem_range] at hm
    exact jlookup_some_mem _ _ _
      (collectP_lookup kvs fuel i m _ (List.getElem?_eq_getElem hm))
  have := (hnd.subperm hsub).length_le
  simpa using this

theorem collectP_stop (kvs : List (String × JValue)) :
    ∀ fuel i, (collectP kvs i fuel).length < fuel →
      jlookup kvs (pkey (i + (collectP kvs i fuel).length)) = none := by
  intro fuel
  induction fuel with
  | zero => intro i h; omega
  | succ f ih =>
    intro i h
    cases hl : jlookup kvs (pkey i) with
    | none =>
      have he : collectP kvs i (f + 1) = [] := by rw [collectP, hl]
      rw [he]
      simpa using hl
    | some w =>
      have he : collectP kvs i (f + 1) = w :: collectP kvs (i + 1) f := by
        rw [collectP, hl]
      rw [he] at h ⊢
      simp only [List.length_cons] at h ⊢
      rw [show i + ((collectP kvs (i + 1) f).length + 1)
          = (i + 1) + (collectP kvs (i + 1) f).length by omega]
      exact ih (i + 1) (by omega)




/-- C7 counterexample: the claim that a validly-decoded handle never has an
empty `handle_id` is false; the serde-derived decoder accepts an empty
`$handle` string, for example on the object with `$handle` bound to the
empty string and `$type` bound to the string T. -/
theorem claim_C7_counterexample :
    ¬ ∀ (v : JValue) (h : Handle), from_value_handle v = some h → h.handle_id ≠ "" := by
  intro hall
  exact hall (.obj [("$handle", .str ""), ("$type", .str "T")]) ⟨"", "T"⟩ rfl rfl

/-- C7 (amended): for every JSON value that validly decodes to a `Handle`,
either the value is an object whose `$handle` and `$type` members are
strings and the decoded fields are exactly those strings, or the value is
the serde `visit_seq` form, the array of exactly the two field strings in
declaration order; decoding imposes no further constraint, so `handle_id`
may be the empty string. -/
theorem claim_C7 (v : JValue) (hh : Handle) (hd : from_value_handle v = some hh) :
    (jget v "$handle" = some (.str hh.handle_id)
      ∧ jget v "$type" = some (.str hh.type_id))
    ∨ v = .arr [.str hh.handle_id, .str hh.type_id] := by
  cases v with
  | obj kvs =>
    left
    simp only [from_value_handle] at hd
    cases h1 : jlookup kvs "$handle" with
    | none => rw [h1] at hd; simp at hd
    | some w1 =>
      cases h2 : jlookup kvs "$type" with
      | none =>
        rw [h1, h2] at hd
        cases w1 <;> simp at hd
      | some w2 =>
        rw [h1, h2] at hd
        cases w1 <;> cases w2 <;> simp at hd
        case str.str s t =>
          cases hh with
          | mk a b =>
            simp only [Handle.mk.injEq] at hd
            obtain ⟨rfl, rfl⟩ := hd
            exact ⟨h1, h2⟩
  | null => simp [from_value_handle] at hd
  | bool b => simp [from_value_handle] at hd
  | num m => simp [from_value_handle] at hd
  | str s => simp [from_value_handle] at hd
  | arr xs =>
    right
    rcases xs with _ | ⟨a, _ | ⟨b, _ | ⟨c, rest⟩⟩⟩
    · simp [from_value_handle] at hd
    · cases a <;> simp [from_value_handle] at hd
    · cases a <;> cases b <;> simp [from_value_handle] at hd
      case str.str s t =>
        cases hh with
        | mk x y =>
          simp only [Handle.mk.injEq] at hd
          obtain ⟨rfl, rfl⟩ := hd
          rfl
    · cases a <;> cases b <;> simp [from_value_handle] at hd

/-- C7 witness: two concrete decodes fed through the amended theorem, one
for the object form and one for the two-string array form. -/
theorem claim_C7_witness :
    ((jget (.obj [("$handle", .str "a"), ("$type", .str "T")]) "$handle"
        = some (.str (Handle.mk "a" "T").handle_id)
      ∧ jget (.obj [("$handle", .str "a"), ("$type", .str "T")]) "$type"
        = some (.str (Handle.mk "a" "T").type_id))
      ∨ JValue.obj [("$handle", .str "a"), ("$type", .str "T")]
        = .arr [.str (Handle.mk "a" "T").handle_id, .str (Handle.mk "a" "T").type_id])
    ∧ ((jget (.arr [.str "h", .str "T"]) "$handle"
        = some (.str (Handle.mk "h" "T").handle_id)
      ∧ jget (.arr [.str "h", .str "T"]) "$type"
        = some (.str (Handle.mk "h" "T").type_id))
      ∨ JValue.arr [.str "h", .str "T"]
        = .arr [.str (Handle.mk "h" "T").handle_id, .str (Handle.mk "h" "T").type_id]) :=
  ⟨claim_C7 (.obj [("$handle", .str "a"), ("$type", .str "T")]) ⟨"a", "T"⟩ rfl,
   claim_C7 (.arr [.str "h", .str "T"]) ⟨"h", "T"⟩ rfl⟩

/-- C8 counterexample: `decode(encode(ref_expr)) = ref_expr` fails, because
`to_json` wraps the fields in a `$refExpr` envelope while the serde-derived
decoder reads the bare `format` and `args` members; decoding the encoding of
the expression with format f and no arguments fails. -/
theorem claim_C8_counterexample :
    ¬ ∀ r : ReferenceExpression, from_value_ref_expr r.to_json = some r := by
  intro hall
  exact Option.noConfusion (hall ⟨"f", []⟩)

/-- C8 (amended): `to_json` always emits the `$refExpr` envelope, the
serde-derived decoder rejects that envelope (so the literal round trip
fails for every reference expression), and decoding the object under the
`$refExpr` member of the encoding yields the original expression. -/
theorem claim_C8 (r : ReferenceExpression) :
    r.to_json = .obj [("$refExpr", .obj [("format", .str r.format), ("args", .arr r.args)])]
    ∧ from_value_ref_expr r.to_json = none
    ∧ (jget r.to_json "$refExpr").bind from_value_ref_expr = some r := by
  refine ⟨rfl, ?_, ?_⟩
  · simp [ReferenceExpression.to_json, from_value_ref_expr, jlookup]
  · simp [ReferenceExpression.to_json, from_value_ref_expr, jget, jlookup]

/-- C5 counterexample: disconnect listeners do not run exactly once per
transition to disconnected; after a connect, a registered listener and a
first disconnect (which leaves the client disconnected), a second
`disconnect()` call fires the listener again. -/
theorem claim_C5_counterexample :
    ((ClientState.new.connect.on_disconnect 0).disconnect.1.connected = false)
    ∧ ((ClientState.new.connect.on_disconnect 0).disconnect.1.disconnect.2 = [0]) :=
  ⟨rfl, rfl⟩

/-- C5 (amended): every `disconnect()` call stores `connected = false` and
fires all registered listeners in registration order, with no check of the
previous connection state; listeners stay registered, so a `disconnect()`
on an already-disconnected client fires them again. -/
theorem claim_C5 (s : ClientState) :
    s.disconnect = ({ s with connected := false }, s.disconnect_callbacks)
    ∧ ∀ l, (s.on_disconnect l).disconnect_callbacks = s.disconnect_callbacks ++ [l] :=
  ⟨rfl, fun _ => rfl⟩

/-- C6: `is_cancelled` is monotone (no operation resets it), the first
`cancel()` call drains the registered continuations and runs them exactly
once in registration order, and subsequent `cancel()` calls are no-ops that
run nothing. -/
theorem claim_C6 (s : TokenState) :
    (∀ op, s.is_cancelled = true → (tokenStep s op).1.is_cancelled = true)
    ∧ (s.is_cancelled = false →
        s.cancel = (⟨true, []⟩, s.callbacks) ∧ s.cancel.1.cancel.2 = [])
    ∧ (s.is_cancelled = true → s.cancel = (s, [])) := by
  refine ⟨?_, ?_, ?_⟩
  · intro op h
    cases op with
    | cancel => simp [tokenStep, TokenState.cancel, TokenState.is_cancelled] at h ⊢; simp [h]
    | register c => simp [tokenStep, TokenState.register, TokenState.is_cancelled] at h ⊢; simp [h]
  · intro h
    simp [TokenState.is_cancelled] at h
    constructor
    · simp [TokenState.cancel, h]
    · simp [TokenState.cancel, h]
  · intro h
    simp [TokenState.is_cancelled] at h
    simp [TokenState.cancel, h]

/-- C6 witness: concrete token states fed through the theorem. -/
theorem claim_C6_witness :
    (tokenStep ⟨true, []⟩ .cancel).1.is_cancelled = true
    ∧ TokenState.cancel ⟨false, [5, 7]⟩ = (⟨true, []⟩, [5, 7])
    ∧ TokenState.cancel ⟨true, []⟩ = (⟨true, []⟩, []) :=
  ⟨(claim_C6 ⟨true, []⟩).1 .cancel rfl,
   ((claim_C6 ⟨false, [5, 7]⟩).2.1 rfl).1,
   (claim_C6 ⟨true, []⟩).2.2 rfl⟩

theorem cancel_token_on_response (reg : Registry) (rid : Nat) (v : JValue) :
    (cancel_token_on reg rid [mk_response rid v]).2
      = some (.ok ((asBool v).getD false)) := by
  simp [cancel_token_on, send_request_loop, mk_response, jget, jlookup, asU64, Except.map]

/-- C9: a `cancelToken` response whose `result` is not a JSON boolean
(including a missing `result` member) makes `cancel_token` return `Ok(false)`
rather than failing, and the call returns `true` exactly when the `result`
is the JSON boolean `true`. -/
theorem claim_C9 (reg : Registry) (rid : Nat) (v : JValue) :
    (asBool v = none →
      (cancel_token_on reg rid [mk_response rid v]).2 = some (.ok false))
    ∧ ((cancel_token_on reg rid [mk_response rid v]).2 = some (.ok true) ↔ v = .bool true)
    ∧ (cancel_token_on reg rid [mk_bare_response rid]).2 = some (.ok false) := by
  refine ⟨?_, ?_, ?_⟩
  · intro h
    rw [cancel_token_on_response, h]
    rfl
  · rw [cancel_token_on_response]
    cases v with
    | bool b => cases b <;> simp [asBool]
    | null => simp [asBool]
    | num m => simp [asBool]
    | str s => simp [asBool]
    | arr xs => simp [asBool]
    | obj kvs => simp [asBool]
  · simp [cancel_token_on, send_request_loop, mk_bare_response, jget, jlookup, asU64,
      asBool, Except.map]

/-- C9 witness: a `null` result and a missing result yield `Ok(false)`; a
literal `true` result yields `Ok(true)`. -/
theorem claim_C9_witness :
    (cancel_token_on (fun _ => none) 1 [mk_response 1 .null]).2 = some (.ok false)
    ∧ (cancel_token_on (fun _ => none) 1 [mk_response 1 (.bool true)]).2 = some (.ok true) :=
  ⟨(claim_C9 (fun _ => none) 1 .null).1 rfl,
   ((claim_C9 (fun _ => none) 1 (.bool true)).2.1).mpr rfl⟩

/-- C10: during the dispatch loop, an incoming message with no `method`
member whose `id` is absent, not an unsigned integer, or different from the
current outbound request id is silently skipped: the loop result over the
remaining messages is unchanged, so the message is never returned, never
fails the call, and reading continues. -/
theorem claim_C10 (reg : Registry) (rid : Nat) (msg : JValue) (rest : List JValue)
    (hm : jget msg "method" = none)
    (hid : (jget msg "id").bind asU64 = none ∨
      ∃ k, (jget msg "id").bind asU64 = some k ∧ k ≠ rid) :
    send_request_loop reg rid (msg :: rest) = send_request_loop reg rid rest := by
  rcases hid with h | ⟨k, hk, hne⟩
  · simp [send_request_loop, hm, h]
  · simp [send_request_loop, hm, hk, hne]

/-- C10 witness: a message with a string `id`, and one with a mismatched
numeric `id`, are both skipped. -/
theorem claim_C10_witness :
    send_request_loop (fun _ => none) 1 [.obj [("id", .str "x")]]
      = send_request_loop (fun _ => none) 1 []
    ∧ send_request_loop (fun _ => none) 1 [.obj [("id", .num (.uint 2))]]
      = send_request_loop (fun _ => none) 1 [] :=
  ⟨claim_C10 (fun _ => none) 1 _ [] rfl (.inl rfl),
   claim_C10 (fun _ => none) 1 _ [] rfl (.inr ⟨2, rfl, by decide⟩)⟩

/-- C1 counterexample: the claim quantifies over every response whose
result object carries a `$error` member, but when the member value is not
an object (here the string boom) `invoke_capability` does not fail with a
`CapabilityError`: it returns the result unchanged. -/
theorem claim_C1_counterexample :
    (invoke_capability_on (fun _ => none) 1
        [mk_response 1 (.obj [("$error", .str "boom")])]).2
      = some (.ok (.obj [("$error", .str "boom")])) := rfl

/-- C1 (amended): for every `invoke_capability` call whose JSON-RPC response
carries a result object with a `$error` member whose value is an object,
the call fails with a `CapabilityError` whose code, message and capability
are the string values of the corresponding `$error` members (code and
message default to the empty string, capability to `None`); this is
distinct from a JSON-RPC-layer `error` member, which fails with a protocol
error carrying the `error.message` string instead. -/
theorem claim_C1 (reg : Registry) (rid : Nat) (kvs errObj : List (String × JValue))
    (h : jlookup kvs "$error" = some (.obj errObj)) :
    (invoke_capability_on reg rid [mk_response rid (.obj kvs)]).2
      = some (.error (.capability (capability_error_of errObj)))
    ∧ ∀ e : JValue, (invoke_capability_on reg rid [mk_error_response rid e]).2
      = some (.error (.protocol (json_error_message e))) := by
  constructor
  · simp [invoke_capability_on, send_request_loop, mk_response, jget, jlookup, asU64,
      invoke_capability_shape, is_ats_error, h]
  · intro e
    simp [invoke_capability_on, send_request_loop, mk_error_response, jget, jlookup, asU64]

/-- C1 witness: a concrete `$error` envelope produces the copied
`CapabilityError`, and a concrete JSON-RPC `error` member produces the
protocol error with its message. -/
theorem claim_C1_witness :
    (invoke_capability_on (fun _ => none) 1
        [mk_response 1 (.obj [("$error", .obj [("code", .str "X"),
          ("message", .str "m"), ("capability", .str "c")])])]).2
      = some (.error (.capability ⟨"X", "m", some "c"⟩))
    ∧ (invoke_capability_on (fun _ => none) 1
        [mk_error_response 1 (.obj [("message", .str "bad")])]).2
      = some (.error (.protocol "bad")) := by
  have h := claim_C1 (fun _ => none) 1
    [("$error", .obj [("code", .str "X"), ("message", .str "m"), ("capability", .str "c")])]
    [("code", .str "X"), ("message", .str "m"), ("capability", .str "c")] rfl
  exact ⟨h.1, h.2 _⟩

/-- C4 counterexample: the claim that every reverse request is answered is
false for a reverse request without an `id` member: a message with the
unknown method bogus and no `id` produces no reply at all (not a `-32601`
answer), and the loop writes nothing for it. -/
theorem claim_C4_counterexample :
    handle_callback_request (fun _ => none) (.obj [("method", .str "bogus")]) = none
    ∧ (send_request_loop (fun _ => none) 1
        [.obj [("method", .str "bogus")], mk_response 1 .null]).replies = [] :=
  ⟨rfl, rfl⟩

/-- C4 (amended): for every inbound reverse request processed during the
dispatch loop that carries an `id`: a method other than `invokeCallback` is
answered with a JSON-RPC error reply with code `-32601`; an `invokeCallback`
whose callback id is unknown in the registry is answered with code
`-32000`; each reply carries the inbound request's `id`. A reverse request
without an `id` is processed but no reply is written. In every case the
read loop continues with the remaining messages rather than raising to the
caller. -/
theorem claim_C4 (reg : Registry) :
    (∀ msg id, method_of msg ≠ "invokeCallback" → jget msg "id" = some id →
      handle_callback_request reg msg
        = some (error_reply id (-32601) ("Unknown method: " ++ method_of msg)))
    ∧ (∀ id callback_id args, callback_id ≠ "" → reg callback_id = none →
      handle_callback_request reg (mk_callback_request id callback_id args)
        = some (error_reply id (-32000) ("Callback not found: " ++ callback_id)))
    ∧ (∀ msg, jget msg "id" = none → handle_callback_request reg msg = none)
    ∧ (∀ msg rest rid, (jget msg "method").isSome = true →
      send_request_loop reg rid (msg :: rest)
        = ⟨(handle_callback_request reg msg).toList
            ++ (send_request_loop reg rid rest).replies,
           (send_request_loop reg rid rest).outcome⟩) := by
  refine ⟨?_, ?_, ?_, ?_⟩
  · intro msg id hm hid
    simp [handle_callback_request, hm, hid]
  · intro id callback_id args hcb hreg
    simp [handle_callback_request, mk_callback_request, method_of, jget, jlookup,
      asArr, asStr, invoke_callback, hcb, hreg]
  · intro msg hid
    rw [handle_callback_request]
    simp only [hid]
    split
    · rfl
    · split <;> rfl
  · intro msg rest rid hm
    simp [send_request_loop, hm]

/-- C4 witness: concrete reverse requests fed through the theorem: an
unknown method with an `id` gets a `-32601` reply carrying that `id`, an
`invokeCallback` for an unregistered callback id gets a `-32000` reply, a
request without `id` gets no reply, and the loop result over the remaining
messages is preserved. -/
theorem claim_C4_witness :
    handle_callback_request (fun _ => none)
        (.obj [("method", .str "bogus"), ("id", .num (.uint 7))])
      = some (error_reply (.num (.uint 7)) (-32601) "Unknown method: bogus")
    ∧ handle_callback_request (fun _ => none) (mk_callback_request (.str "q") "cb" .null)
      = some (error_reply (.str "q") (-32000) "Callback not found: cb")
    ∧ handle_callback_request (fun _ => none) (.obj [("method", .str "nope")]) = none
    ∧ send_request_loop (fun _ => none) 1
        [.obj [("method", .str "nope")], mk_response 1 .null]
      = ⟨(handle_callback_request (fun _ => none) (.obj [("method", .str "nope")])).toList
          ++ (send_request_loop (fun _ => none) 1 [mk_response 1 .null]).replies,
         (send_request_loop (fun _ => none) 1 [mk_response 1 .null]).outcome⟩ := by
  refine ⟨?_, ?_, ?_, ?_⟩
  · exact (claim_C4 (fun _ => none)).1
      (.obj [("method", .str "bogus"), ("id", .num (.uint 7))])
      (.num (.uint 7)) (by decide) rfl
  · exact (claim_C4 (fun _ => none)).2.1 (.str "q") "cb" .null (by decide) rfl
  · exact (claim_C4 (fun _ => none)).2.2.1 (.obj [("method", .str "nope")]) rfl
  · exact (claim_C4 (fun _ => none)).2.2.2 (.obj [("method", .str "nope")])
      [mk_response 1 .null] 1 rfl

theorem accessN_resolved (invoke : InvokeOracle) (ctx : Handle) (g : Option String)
    (h : Handle) (n : Nat) :
    LazyColl.accessN invoke ⟨ctx, g, some h⟩ n
      = (List.replicate n h, ⟨ctx, g, some h⟩, []) := by
  induction n with
  | zero => rfl
  | succ m ih =>
    simp [LazyColl.accessN, LazyColl.ensure_handle, ih, List.replicate]

/-- C2: a lazy collection built with `with_getter` invokes the getter
capability exactly once over any positive number of `handle()` accesses,
with the single argument binding context to the serialized context handle;
every access returns the same cached handle, the write-once cell holds it,
and the cached value is the decoded result when the getter result decodes
as a handle and the context handle otherwise (including on a failed
invocation). -/
theorem claim_C2 (invoke : InvokeOracle) (ctx : Handle) (g : String) (n : Nat) :
    (LazyColl.accessN invoke (LazyColl.with_getter ctx g) (n + 1)
      = (List.replicate (n + 1) (resolve_getter invoke ctx g),
         ⟨ctx, some g, some (resolve_getter invoke ctx g)⟩,
         [(g, [("context", ctx.to_json)])]))
    ∧ (∀ v, invoke g [("context", ctx.to_json)] = .ok v →
        resolve_getter invoke ctx g = (from_value_handle v).getD ctx)
    ∧ (∀ e, invoke g [("context", ctx.to_json)] = .error e →
        resolve_getter invoke ctx g = ctx) := by
  refine ⟨?_, ?_, ?_⟩
  · rw [LazyColl.accessN]
    simp [LazyColl.ensure_handle, LazyColl.with_getter, accessN_resolved, List.replicate]
  · intro v hv
    cases hfv : from_value_handle v <;>
      simp [resolve_getter, hv, hfv]
  · intro e he
    simp [resolve_getter, he]

/-- C2 witness: a concrete getter whose result decodes as a handle: two
accesses produce one invocation and both return the decoded handle; a
getter returning the serde array form also has its result decoded and
cached. -/
theorem claim_C2_witness :
    LazyColl.accessN
        (fun _ _ => .ok (.obj [("$handle", .str "r"), ("$type", .str "L")]))
        (LazyColl.with_getter ⟨"c", "T"⟩ "G") 2
      = (List.replicate 2 (Handle.mk "r" "L"), ⟨⟨"c", "T"⟩, some "G", some ⟨"r", "L"⟩⟩,
         [("G", [("context", (Handle.mk "c" "T").to_json)])])
    ∧ resolve_getter (fun _ _ => .ok (.obj [("$handle", .str "r"), ("$type", .str "L")]))
        ⟨"c", "T"⟩ "G" = ⟨"r", "L"⟩
    ∧ resolve_getter (fun _ _ => .ok (.arr [.str "h", .str "L"]))
        ⟨"c", "T"⟩ "G" = ⟨"h", "L"⟩ := by
  have h := claim_C2 (fun _ _ => .ok (.obj [("$handle", .str "r"), ("$type", .str "L")]))
    ⟨"c", "T"⟩ "G" 1
  have hr : resolve_getter
      (fun _ _ => .ok (.obj [("$handle", .str "r"), ("$type", .str "L")]))
      ⟨"c", "T"⟩ "G" = ⟨"r", "L"⟩ :=
    h.2.1 (.obj [("$handle", .str "r"), ("$type", .str "L")]) rfl
  have ha : resolve_getter (fun _ _ => .ok (.arr [.str "h", .str "L"]))
      ⟨"c", "T"⟩ "G" = ⟨"h", "L"⟩ :=
    (claim_C2 (fun _ _ => .ok (.arr [.str "h", .str "L"])) ⟨"c", "T"⟩ "G" 0).2.1
      (.arr [.str "h", .str "L"]) rfl
  exact ⟨by rw [← hr]; exact h.1, hr, ha⟩

/-- C3: for every inbound `invokeCallback` reverse request, the positional
argument sequence is determined by the `args` value as follows: for a JSON
object, the values of keys `p0`, `p1`, ... in order, stopping at the first
missing key (every collected position comes from its `pK` key and the key
at the sequence length is missing); for a single non-null non-object value,
exactly that one value; for `null`, the empty sequence. -/
theorem claim_C3 :
    (∀ kvs : List (String × JValue),
      (∀ m v, (positional_args (.obj kvs))[m]? = some v →
        jlookup kvs (pkey m) = some v)
      ∧ jlookup kvs (pkey (positional_args (.obj kvs)).length) = none)
    ∧ (∀ v : JValue, v ≠ .null → (∀ kvs, v ≠ .obj kvs) → positional_args v = [v])
    ∧ positional_args .null = [] := by
  refine ⟨fun kvs => ⟨fun m v h => ?_, ?_⟩, fun v hn ho => ?_, rfl⟩
  · have h2 := collectP_lookup kvs (kvs.length + 1) 0 m v (by simpa [positional_args] using h)
    simpa using h2
  · have hlen : (collectP kvs 0 (kvs.length + 1)).length < kvs.length + 1 :=
      Nat.lt_succ_of_le (collectP_length_le kvs (kvs.length + 1) 0)
    have h2 := collectP_stop kvs (kvs.length + 1) 0 hlen
    simpa [positional_args] using h2
  · cases v with
    | null => exact absurd rfl hn
    | obj kvs => exact absurd rfl (ho kvs)
    | bool b => rfl
    | num m => rfl
    | str s => rfl
    | arr xs => rfl

/-- C3 witness: a concrete object argument with a single `p0` key stops at
`p1`, and a plain string argument becomes the one-element sequence. -/
theorem claim_C3_witness :
    jlookup [("p0", JValue.str "a")] (pkey 1) = none
    ∧ positional_args (.str "x") = [.str "x"] :=
  ⟨(claim_C3.1 [("p0", JValue.str "a")]).2,
   claim_C3.2.1 (.str "x") (fun h => JValue.noConfusion h)
     (fun _ h => JValue.noConfusion h)⟩
